import Mathlib

/-!
# overture: configuration loading and server start-up

A shallow embedding of `core/config/config.go` (`NewConfig`, `parseJson`,
`getDomainList`, `getIPNetworkList`) and `core/init.go` (`InitServer`).

Conventions of the embedding

* A Go `string` is a sequence of bytes.  Texts are modelled as `List Char`; every
  character the code inspects (the regular expression classes, the marker
  `Whitelist Start`) is ASCII, so byte positions and character positions agree on
  the texts considered.
* A Go pointer is an `Option`: `none` is `nil`.  A Go slice is a `List`
  (a `nil` slice and an empty slice both have length `0` and are both `[]`).
* Everything outside the two source files (the file system, `encoding/json`,
  `encoding/base64`, `net.ParseCIDR`, `bufio.Scanner`, `hosts.New`, `cache.New`)
  is a field of `World`; the functions of the source are functions of a `World`.
* Logging and `defer f.Close()` have no effect on the results and are left out.
* A call either returns, ends the process (`os.Exit`) or fails at run time
  (a Go panic); `Run` carries that outcome together with the trace of the
  externally visible steps taken so far.
-/

set_option maxRecDepth 8192

namespace Overture

/-- Text of a file or of a Go string. -/
abbrev Text := List Char

/-! ## Outcomes and traces -/

/-- Run-time failures (Go panics) the modelled code can hit. -/
inductive Fault where
  | indexOutOfRange
  | nilDereference
  | sliceBounds
  deriving DecidableEq, Repr

/-- How a call ends. -/
inductive Outcome (α : Type) where
  | ret (a : α)
  | exit (code : Nat)
  | panic (f : Fault)
  deriving DecidableEq, Repr

/-- Externally visible steps, in the order the code takes them. -/
inductive Event where
  | readConfig (path : String)
  | openIPNetworkFile (path : String)
  | readDomainFile (path : String)
  | cacheNew (size : Int)
  | hostsNew (path : String)
  | newDispatcher
  | newServer
  | serverRun
  deriving DecidableEq, Repr

/-- A computation: the steps taken and how it ended. -/
structure Run (α : Type) where
  trace : List Event
  outcome : Outcome α

namespace Run

/-- Return a value without taking a step. -/
def ret {α : Type} (a : α) : Run α := ⟨[], .ret a⟩

/-- Sequencing: the second computation runs only when the first returns. -/
def andThen {α β : Type} (x : Run α) (f : α → Run β) : Run β :=
  match x.outcome with
  | .ret a => ⟨x.trace ++ (f a).trace, (f a).outcome⟩
  | .exit n => ⟨x.trace, .exit n⟩
  | .panic e => ⟨x.trace, .panic e⟩

/-- Record one step. -/
def emit (e : Event) : Run Unit := ⟨[e], .ret ()⟩

/-- The call `os.Exit(code)`. -/
def exit {α : Type} (code : Nat) : Run α := ⟨[], .exit code⟩

/-- A Go panic. -/
def panic {α : Type} (f : Fault) : Run α := ⟨[], .panic f⟩

end Run

instance : Monad Run where
  pure := Run.ret
  bind := Run.andThen

/-! ## Regular expressions (package `regexp`, leftmost-first semantics) -/

/-- The fragment of regular-expression syntax used by the source. -/
inductive Re where
  | cls (p : Char → Bool)
  | cat (a b : Re)
  | plus (a : Re)
  | star (a : Re)
  | group (a : Re)

/-- Greedy iteration of `step`: the remainders after zero or more rounds, the
ones with more rounds first; a round that consumes nothing is not repeated. -/
def iterStar (step : Text → List Text) : Nat → Text → List Text
  | 0, s => [s]
  | n + 1, s =>
    ((step s).filter (fun r => r.length < s.length)).flatMap (iterStar step n) ++ [s]

/-- All the ways `re` matches a prefix of `s`, each given by the text left
after the match, in the order of preference of a backtracking matcher. -/
def Re.ends : Re → Text → List Text
  | .cls _, [] => []
  | .cls p, c :: t => if p c then [t] else []
  | .cat a b, s => (a.ends s).flatMap b.ends
  | .plus a, s => (a.ends s).flatMap (fun r => iterStar a.ends r.length r)
  | .star a, s => iterStar a.ends s.length s
  | .group a, s => a.ends s

/-- Length of the preferred match of `re` at the start of `s`, if there is one. -/
def Re.matchLen (re : Re) (s : Text) : Option Nat :=
  (re.ends s).head?.map fun r => s.length - r.length

/-- The loop of `FindAllString(s, -1)`: the successive non-overlapping matches,
each the leftmost one at or after the end of the previous match.  The first
argument counts the characters of the current match still to be skipped.
An empty match is passed over; the pattern of the source has none. -/
def Re.allMatches (re : Re) : Nat → Text → List Text
  | _, [] => []
  | k + 1, _ :: t => re.allMatches k t
  | 0, c :: t =>
    match re.matchLen (c :: t) with
    | none => re.allMatches 0 t
    | some 0 => re.allMatches 0 t
    | some (n + 1) => (c :: t).take (n + 1) :: re.allMatches n t

/-- The call `re.FindAllString(s, -1)`; every match is the whole match (group 0). -/
def Re.FindAllString (re : Re) (s : Text) : List Text :=
  re.allMatches 0 s

/-- The class `\w`: ASCII letters, digits and the underscore. -/
def isWord (c : Char) : Bool :=
  ('0' ≤ c ∧ c ≤ '9') ∨ ('A' ≤ c ∧ c ≤ 'Z') ∨ c = '_' ∨ ('a' ≤ c ∧ c ≤ 'z')

/-- The class `[\w\-\_]`. -/
def isLabelChar (c : Char) : Bool :=
  isWord c || c == '-' || c == '_'

/-- The class `[\w\.\-\_]`. -/
def isNameChar (c : Char) : Bool :=
  isWord c || c == '.' || c == '-' || c == '_'

/-- The class `[\/\*]`. -/
def isTailChar (c : Char) : Bool :=
  c == '/' || c == '*'

/-- The pattern compiled in `getDomainList`:
`([\w\-\_]+\.[\w\.\-\_]+)[\/\*]*`. -/
def domainRe : Re :=
  .cat
    (.group (.cat (.plus (.cls isLabelChar))
      (.cat (.cls fun c => c == '.') (.plus (.cls isNameChar)))))
    (.star (.cls isTailChar))

/-! ## Package `strings` and slicing -/

/-- Search of `strings.Index`, `i` being the offset of the text still to search. -/
def indexFrom (sep : Text) (i : Nat) : Text → Int
  | [] => if sep.isPrefixOf [] then (i : Int) else -1
  | c :: t => if sep.isPrefixOf (c :: t) then (i : Int) else indexFrom sep (i + 1) t

/-- The call `strings.Index(s, sep)`: offset of the first instance of `sep` in
`s`, or `-1` when there is none. -/
def stringsIndex (s sep : Text) : Int :=
  indexFrom sep 0 s

/-- The slice expression `s[:n]`: fails at run time unless `0 ≤ n ≤ len(s)`. -/
def sliceTo (s : Text) (n : Int) : Option Text :=
  if 0 ≤ n ∧ n ≤ (s.length : Int) then some (s.take n.toNat) else none

/-- The marker searched for in base64 mode. -/
def marker : Text := "Whitelist Start".toList

/-! ## Data model -/

/-- Modelled from the spec: the declaration of `common.DNSUpstream` is not among
the source files; the spec gives an upstream as address, protocol, optional
SOCKS5 proxy address and timeout. -/
structure DNSUpstream where
  Address : String
  Protocol : String
  SOCKS5Address : String
  Timeout : Int
  deriving DecidableEq, Repr

/-- The type `net.IPNet`: an address and a mask, as bytes. -/
structure IPNet where
  IP : List Nat
  Mask : List Nat
  deriving DecidableEq, Repr

/-- The struct `Config`; `Hosts` and `Cache` are the types `hosts.Hosts` and
`cache.Cache`, declared outside the source files. -/
structure Config (Hosts Cache : Type) where
  BindAddress : String
  PrimaryDNS : List (Option DNSUpstream)
  AlternativeDNS : List (Option DNSUpstream)
  OnlyPrimaryDNS : Bool
  RedirectIPv6Record : Bool
  IPNetworkFile : String
  DomainFile : String
  DomainBase64Decode : Bool
  HostsFile : String
  MinimumTTL : Int
  CacheSize : Int
  RejectQtype : List Nat
  DomainList : List Text
  IPNetworkList : List (Option IPNet)
  Hosts : Option Hosts
  Cache : Option Cache
  deriving DecidableEq

/-- The fields of `outbound.Dispatcher` that `InitServer` sets. -/
structure Dispatcher where
  PrimaryDNS : List (Option DNSUpstream)
  AlternativeDNS : List (Option DNSUpstream)
  OnlyPrimaryDNS : Bool
  IPNetworkList : List (Option IPNet)
  DomainList : List Text
  RedirectIPv6Record : Bool
  deriving DecidableEq, Repr

/-- The fields of `inbound.Server` that `InitServer` sets. -/
structure Server (Hosts Cache : Type) where
  BindAddress : String
  Dispatcher : Dispatcher
  MinimumTTL : Int
  RejectQtype : List Nat
  Hosts : Option Hosts
  Cache : Option Cache
  deriving DecidableEq

/-- Result of reading the configuration file with `os.Open` and `ioutil.ReadAll`. -/
inductive FileResult where
  | openError
  | readError
  | data (b : Text)
  deriving DecidableEq, Repr

/-- Result `(h, err)` of `hosts.New`. -/
inductive HostsResult (Hosts : Type) where
  | error
  | loaded (h : Option Hosts)

/-- Everything the two source files call but do not define. -/
structure World (Hosts Cache : Type) where
  /-- The calls `os.Open(path)` and `ioutil.ReadAll` of `parseJson`. -/
  readConfig : String → FileResult
  /-- The call `json.Unmarshal(b, j)` on a fresh `Config`; `none` is an error. -/
  unmarshal : Text → Option (Config Hosts Cache)
  /-- The call `os.Open(path)` followed by the lines `bufio.Scanner` yields;
  `none` when the file cannot be opened. -/
  openLines : String → Option (List Text)
  /-- The network returned by `net.ParseCIDR`; `none` is an error. -/
  parseCIDR : Text → Option IPNet
  /-- The call `ioutil.ReadFile(path)`; `none` is an error. -/
  readFile : String → Option Text
  /-- The call `base64.StdEncoding.DecodeString`; `none` is an error. -/
  decodeString : Text → Option Text
  /-- The call `cache.New(size)`. -/
  cacheNew : Int → Option Cache
  /-- The call `hosts.New(path)`. -/
  hostsNew : String → HostsResult Hosts

section Code

variable {Hosts Cache : Type}

/-! ## `core/config/config.go` -/

/-- The function `parseJson`: each of the three failures ends the process with
status 1. -/
def parseJson (w : World Hosts Cache) (path : String) : Run (Config Hosts Cache) := do
  Run.emit (.readConfig path)
  match w.readConfig path with
  | .openError => Run.exit 1
  | .readError => Run.exit 1
  | .data b =>
    match w.unmarshal b with
    | none => Run.exit 1
    | some j => pure j

/-- The method `getDomainList`. -/
def getDomainList (w : World Hosts Cache) (c : Config Hosts Cache) :
    Run (Config Hosts Cache) := do
  Run.emit (.readDomainFile c.DomainFile)
  match w.readFile c.DomainFile with
  | none => pure c
  | some f =>
    if c.DomainBase64Decode then
      match w.decodeString f with
      | none => pure c
      | some fds =>
        let n := stringsIndex fds marker
        match sliceTo fds n with
        | none => Run.panic .sliceBounds
        | some pre => pure { c with DomainList := domainRe.FindAllString pre }
    else
      pure { c with DomainList := domainRe.FindAllString f }

/-- The loop `for s.Scan()` of `getIPNetworkList`: `ipnl` is the list built so
far, a line that does not parse leaves the loop. -/
def scanLoop (parse : Text → Option IPNet) :
    List Text → List (Option IPNet) → List (Option IPNet)
  | [], ipnl => ipnl
  | l :: rest, ipnl =>
    match parse l with
    | none => ipnl
    | some ip_net => scanLoop parse rest (ipnl ++ [some ip_net])

/-- The method `getIPNetworkList`. -/
def getIPNetworkList (w : World Hosts Cache) (c : Config Hosts Cache) :
    Run (Config Hosts Cache) := do
  Run.emit (.openIPNetworkFile c.IPNetworkFile)
  match w.openLines c.IPNetworkFile with
  | none => pure c
  | some ls => pure { c with IPNetworkList := scanLoop w.parseCIDR ls [] }

/-- The function `NewConfig`. -/
def NewConfig (w : World Hosts Cache) (configFile : String) : Run (Config Hosts Cache) := do
  let config ← parseJson w configFile
  let config ← getIPNetworkList w config
  let config ← getDomainList w config
  Run.emit (.cacheNew config.CacheSize)
  let config := { config with Cache := w.cacheNew config.CacheSize }
  Run.emit (.hostsNew config.HostsFile)
  match w.hostsNew config.HostsFile with
  | .error => pure config
  | .loaded h => pure { config with Hosts := h }

/-! ## `core/init.go` -/

/-- An assignment `xs[0].field = v`, given as the update `f` of the element. -/
def assignFirst (f : DNSUpstream → DNSUpstream) :
    List (Option DNSUpstream) → Run (List (Option DNSUpstream))
  | [] => Run.panic .indexOutOfRange
  | none :: _ => Run.panic .nilDereference
  | some u :: rest => pure (some (f u) :: rest)

/-- The function `InitServer`, up to the call `s.Run()`; the value returned is
the server that call is made on. -/
def InitServer (w : World Hosts Cache) (configFilePath socksAddr : String) :
    Run (Server Hosts Cache) := do
  let config ← NewConfig w configFilePath
  let primary ← assignFirst (fun u => { u with Protocol := "tcp" }) config.PrimaryDNS
  let primary ← assignFirst (fun u => { u with SOCKS5Address := socksAddr }) primary
  let alternative ←
    assignFirst (fun u => { u with SOCKS5Address := socksAddr }) config.AlternativeDNS
  Run.emit .newDispatcher
  let d : Dispatcher :=
    { PrimaryDNS := primary
      AlternativeDNS := alternative
      OnlyPrimaryDNS := config.OnlyPrimaryDNS
      IPNetworkList := config.IPNetworkList
      DomainList := config.DomainList
      RedirectIPv6Record := config.RedirectIPv6Record }
  Run.emit .newServer
  let s : Server Hosts Cache :=
    { BindAddress := config.BindAddress
      Dispatcher := d
      MinimumTTL := config.MinimumTTL
      RejectQtype := config.RejectQtype
      Hosts := config.Hosts
      Cache := config.Cache }
  Run.emit .serverRun
  pure s

/-! ## Values in which the results are stated -/

/-- The configuration `getIPNetworkList` leaves behind. -/
def afterIPNetworkList (w : World Hosts Cache) (c : Config Hosts Cache) : Config Hosts Cache :=
  match w.openLines c.IPNetworkFile with
  | none => c
  | some ls => { c with IPNetworkList := scanLoop w.parseCIDR ls [] }

/-- The configuration the last steps of `NewConfig` (cache, hosts) leave behind. -/
def afterCacheHosts (w : World Hosts Cache) (c : Config Hosts Cache) : Config Hosts Cache :=
  match w.hostsNew c.HostsFile with
  | .error => { c with Cache := w.cacheNew c.CacheSize }
  | .loaded h => { c with Cache := w.cacheNew c.CacheSize, Hosts := h }

/-- The server `InitServer` builds from a configuration whose two upstream
lists start with the upstreams `p0` and `a0`. -/
def serverOf (cfg : Config Hosts Cache) (socksAddr : String) (p0 : DNSUpstream)
    (ps : List (Option DNSUpstream)) (a0 : DNSUpstream) (as : List (Option DNSUpstream)) :
    Server Hosts Cache :=
  { BindAddress := cfg.BindAddress
    Dispatcher :=
      { PrimaryDNS := some { p0 with Protocol := "tcp", SOCKS5Address := socksAddr } :: ps
        AlternativeDNS := some { a0 with SOCKS5Address := socksAddr } :: as
        OnlyPrimaryDNS := cfg.OnlyPrimaryDNS
        IPNetworkList := cfg.IPNetworkList
        DomainList := cfg.DomainList
        RedirectIPv6Record := cfg.RedirectIPv6Record }
    MinimumTTL := cfg.MinimumTTL
    RejectQtype := cfg.RejectQtype
    Hosts := cfg.Hosts
    Cache := cfg.Cache }

end Code

/-! ## Reference instances of the library calls, used by the examples -/

/-- Value of a character of the standard base64 alphabet (RFC 4648). -/
def b64Value (c : Char) : Option Nat :=
  if 'A' ≤ c ∧ c ≤ 'Z' then some (c.toNat - 65)
  else if 'a' ≤ c ∧ c ≤ 'z' then some (c.toNat - 97 + 26)
  else if '0' ≤ c ∧ c ≤ '9' then some (c.toNat - 48 + 52)
  else if c = '+' then some 62
  else if c = '/' then some 63
  else none

/-- Decoding of padded base64 text, four characters at a time. -/
def decodeQuanta : Text → Option (List Nat)
  | [] => some []
  | a :: b :: c :: d :: rest =>
    match b64Value a, b64Value b with
    | some x, some y =>
      if c = '=' ∧ d = '=' ∧ rest = [] then some [(x * 64 + y) / 16]
      else
        match b64Value c with
        | none => none
        | some z =>
          if d = '=' ∧ rest = [] then
            some [(x * 4096 + y * 64 + z) / 1024, (x * 4096 + y * 64 + z) / 4 % 256]
          else
            match b64Value d, decodeQuanta rest with
            | some v, some more =>
              some ((x * 4 + y / 16) :: (y % 16 * 16 + z / 4) :: (z % 4 * 64 + v) :: more)
            | _, _ => none
    | _, _ => none
  | _ => none

/-- A decoder for `World.decodeString`: standard alphabet, `=` padding, line
breaks skipped. -/
def stdDecodeString (s : Text) : Option Text :=
  (decodeQuanta (s.filter fun c => c != '\r' && c != '\n')).map fun bs => bs.map Char.ofNat

/-- A parser for `World.parseCIDR` that knows two networks; any other line,
the blank line among them, is an error. -/
def tableParseCIDR (l : Text) : Option IPNet :=
  if l = "10.0.0.0/8".toList then some ⟨[10, 0, 0, 0], [255, 0, 0, 0]⟩
  else if l = "192.168.0.0/16".toList then some ⟨[192, 168, 0, 0], [255, 255, 0, 0]⟩
  else none

/-- A configuration with every field at its zero value, as `new(Config)` gives. -/
def zeroConfig : Config Unit Unit :=
  { BindAddress := "", PrimaryDNS := [], AlternativeDNS := [], OnlyPrimaryDNS := false,
    RedirectIPv6Record := false, IPNetworkFile := "", DomainFile := "",
    DomainBase64Decode := false, HostsFile := "", MinimumTTL := 0, CacheSize := 0,
    RejectQtype := [], DomainList := [], IPNetworkList := [], Hosts := none, Cache := none }

/-- A world with no files at all. -/
def emptyWorld : World Unit Unit :=
  { readConfig := fun _ => .openError
    unmarshal := fun _ => none
    openLines := fun _ => none
    parseCIDR := tableParseCIDR
    readFile := fun _ => none
    decodeString := stdDecodeString
    cacheNew := fun _ => some ()
    hostsNew := fun _ => .error }

/-- A world whose only file is the IP-network file `ip_network.txt` with the
given lines. -/
def ipWorld (lines : List String) : World Unit Unit :=
  { emptyWorld with
    openLines := fun p => if p = "ip_network.txt" then some (lines.map String.toList) else none }

/-- A configuration naming the IP-network file of `ipWorld`. -/
def ipConfig : Config Unit Unit :=
  { zeroConfig with IPNetworkFile := "ip_network.txt" }

/-- A world whose only file is the domain file `domain.txt` with the given
content. -/
def domainWorld (content : String) : World Unit Unit :=
  { emptyWorld with
    readFile := fun p => if p = "domain.txt" then some content.toList else none }

/-- A configuration naming the domain file of `domainWorld`. -/
def domainConfig (base64 : Bool) : Config Unit Unit :=
  { zeroConfig with DomainFile := "domain.txt", DomainBase64Decode := base64 }

/-- A world whose only file is the configuration file `config.json`, of content
`json`, which `json.Unmarshal` decodes to `cfg`. -/
def configWorld (json : String) (cfg : Config Unit Unit) : World Unit Unit :=
  { emptyWorld with
    readConfig := fun p => if p = "config.json" then .data json.toList else .openError
    unmarshal := fun b => if b = json.toList then some cfg else none }

/-- A world whose only file is the configuration file `config.json`, of a
content that is not JSON. -/
def badJsonWorld : World Unit Unit :=
  { emptyWorld with
    readConfig := fun p => if p = "config.json" then .data "PrimaryDNS:".toList else .openError }

/-- An upstream with no proxy and a timeout of six seconds. -/
def upstream (address protocol : String) : DNSUpstream :=
  { Address := address, Protocol := protocol, SOCKS5Address := "", Timeout := 6 }

/-- Configuration file giving a domain list and a domain file that does not exist. -/
def presetJson : String :=
  "\x7b\"DomainFile\":\"missing.txt\",\"DomainList\":[\"preset.example\"]\x7d"

/-- The configuration `presetJson` decodes to. -/
def presetConfig : Config Unit Unit :=
  { zeroConfig with DomainFile := "missing.txt", DomainList := ["preset.example".toList] }

/-- Configuration file with two primary upstreams over UDP and one alternative
upstream over TCP. -/
def twoPrimaryJson : String :=
  "\x7b\"PrimaryDNS\":[\x7b\"Address\":\"8.8.8.8:53\",\"Protocol\":\"udp\",\"Timeout\":6\x7d," ++
  "\x7b\"Address\":\"8.8.4.4:53\",\"Protocol\":\"udp\",\"Timeout\":6\x7d]," ++
  "\"AlternativeDNS\":[\x7b\"Address\":\"1.1.1.1:53\",\"Protocol\":\"tcp\",\"Timeout\":6\x7d]\x7d"

/-- The configuration `twoPrimaryJson` decodes to. -/
def twoPrimaryConfig : Config Unit Unit :=
  { zeroConfig with
    PrimaryDNS := [some (upstream "8.8.8.8:53" "udp"), some (upstream "8.8.4.4:53" "udp")]
    AlternativeDNS := [some (upstream "1.1.1.1:53" "tcp")] }

/-- Configuration file whose primary list starts with `null`. -/
def nullFirstJson : String :=
  "\x7b\"PrimaryDNS\":[null,\x7b\"Address\":\"8.8.8.8:53\",\"Protocol\":\"udp\",\"Timeout\":6\x7d]," ++
  "\"AlternativeDNS\":[\x7b\"Address\":\"1.1.1.1:53\",\"Protocol\":\"tcp\",\"Timeout\":6\x7d]\x7d"

/-- The configuration `nullFirstJson` decodes to. -/
def nullFirstConfig : Config Unit Unit :=
  { zeroConfig with
    PrimaryDNS := [none, some (upstream "8.8.8.8:53" "udp")]
    AlternativeDNS := [some (upstream "1.1.1.1:53" "tcp")] }

/-- Configuration file with one upstream in each list and the other settings
given. -/
def settingsJson : String :=
  "\x7b\"BindAddress\":\":53\"," ++
  "\"PrimaryDNS\":[\x7b\"Address\":\"8.8.8.8:53\",\"Protocol\":\"udp\",\"Timeout\":6\x7d]," ++
  "\"AlternativeDNS\":[\x7b\"Address\":\"1.1.1.1:53\",\"Protocol\":\"tcp\",\"Timeout\":6\x7d]," ++
  "\"OnlyPrimaryDNS\":true,\"RedirectIPv6Record\":true,\"MinimumTTL\":300," ++
  "\"CacheSize\":16,\"RejectQtype\":[255]\x7d"

/-- The configuration `settingsJson` decodes to. -/
def settingsConfig : Config Unit Unit :=
  { zeroConfig with
    BindAddress := ":53"
    PrimaryDNS := [some (upstream "8.8.8.8:53" "udp")]
    AlternativeDNS := [some (upstream "1.1.1.1:53" "tcp")]
    OnlyPrimaryDNS := true
    RedirectIPv6Record := true
    MinimumTTL := 300
    CacheSize := 16
    RejectQtype := [255] }

/-! ## The pattern has no empty match -/

theorem iterStar_length_le (step : Text → List Text)
    (hstep : ∀ s r, r ∈ step s → r.length ≤ s.length) :
    ∀ (n : Nat) (s r : Text), r ∈ iterStar step n s → r.length ≤ s.length
  | 0, s, r, h => by
    simp [iterStar] at h
    subst h
    exact le_rfl
  | n + 1, s, r, h => by
    simp only [iterStar, List.mem_append, List.mem_flatMap, List.mem_filter,
      List.mem_singleton] at h
    rcases h with ⟨r1, ⟨_, hlt⟩, hr⟩ | h
    · have := iterStar_length_le step hstep n r1 r hr
      have hlt : r1.length < s.length := by simpa using hlt
      omega
    · subst h
      exact le_rfl

theorem Re.ends_length_le : ∀ (re : Re) (s r : Text), r ∈ re.ends s → r.length ≤ s.length
  | .cls p, [], r, h => by simp [Re.ends] at h
  | .cls p, c :: t, r, h => by
    by_cases hp : p c = true
    · simp [Re.ends, hp] at h
      subst h
      simp
    · simp [Re.ends, hp] at h
  | .cat a b, s, r, h => by
    simp only [Re.ends, List.mem_flatMap] at h
    obtain ⟨r1, h1, h2⟩ := h
    have := Re.ends_length_le a s r1 h1
    have := Re.ends_length_le b r1 r h2
    omega
  | .plus a, s, r, h => by
    simp only [Re.ends, List.mem_flatMap] at h
    obtain ⟨r1, h1, h2⟩ := h
    have := Re.ends_length_le a s r1 h1
    have := iterStar_length_le a.ends (Re.ends_length_le a) _ r1 r h2
    omega
  | .star a, s, r, h => by
    simp only [Re.ends] at h
    exact iterStar_length_le a.ends (Re.ends_length_le a) _ s r h
  | .group a, s, r, h => by
    simp only [Re.ends] at h
    exact Re.ends_length_le a s r h

theorem Re.ends_cls_length_lt (p : Char → Bool) (s r : Text) (h : r ∈ (Re.cls p).ends s) :
    r.length < s.length := by
  cases s with
  | nil => simp [Re.ends] at h
  | cons c t =>
    by_cases hp : p c = true
    · simp [Re.ends, hp] at h
      subst h
      simp
    · simp [Re.ends, hp] at h

/-- Every match of the pattern of the source consumes at least one character. -/
theorem domainRe_ends_length_lt (s r : Text) (h : r ∈ domainRe.ends s) :
    r.length < s.length := by
  simp only [domainRe, Re.ends, List.mem_flatMap] at h
  obtain ⟨r1, ⟨r2, ⟨r3, h3, h2⟩, h1'⟩, h0⟩ := h
  obtain ⟨r4, h4, r5, h5, h6⟩ := h1'
  have := Re.ends_cls_length_lt _ _ _ h3
  have := iterStar_length_le _ (Re.ends_length_le (.cls isLabelChar)) _ _ _ h2
  have := Re.ends_cls_length_lt _ _ _ h4
  have := Re.ends_cls_length_lt _ _ _ h5
  have := iterStar_length_le _ (Re.ends_length_le (.cls isNameChar)) _ _ _ h6
  have := iterStar_length_le _ (Re.ends_length_le (.cls isTailChar)) _ _ _ h0
  omega

/-- The pattern of the source has no empty match. -/
theorem domainRe_matchLen_pos (s : Text) (n : Nat) (h : domainRe.matchLen s = some n) :
    0 < n := by
  unfold Re.matchLen at h
  cases hh : (domainRe.ends s).head? with
  | none => simp [hh] at h
  | some r =>
    simp [hh] at h
    have := domainRe_ends_length_lt s r (List.mem_of_mem_head? hh)
    omega

/-! ## Lemmas on the computation type -/

section RunLemmas

variable {α β : Type}

theorem bind_eq_andThen (x : Run α) (f : α → Run β) : x >>= f = Run.andThen x f := rfl

theorem pure_eq_ret (a : α) : (pure a : Run α) = Run.ret a := rfl

theorem andThen_outcome_ret {x : Run α} {a : α} (h : x.outcome = .ret a) (f : α → Run β) :
    (Run.andThen x f).outcome = (f a).outcome := by
  simp [Run.andThen, h]

theorem andThen_trace_ret {x : Run α} {a : α} (h : x.outcome = .ret a) (f : α → Run β) :
    (Run.andThen x f).trace = x.trace ++ (f a).trace := by
  simp [Run.andThen, h]

theorem andThen_of_exit {x : Run α} {n : Nat} (h : x.outcome = .exit n) (f : α → Run β) :
    Run.andThen x f = ⟨x.trace, .exit n⟩ := by
  simp [Run.andThen, h]

theorem andThen_of_panic {x : Run α} {e : Fault} (h : x.outcome = .panic e) (f : α → Run β) :
    Run.andThen x f = ⟨x.trace, .panic e⟩ := by
  simp [Run.andThen, h]

end RunLemmas

/-! ## The scanning loop of `getIPNetworkList` -/

/-- The loop appends the networks of the leading run of lines that parse and
stops at the first line that does not. -/
theorem scanLoop_leading_run (parse : Text → Option IPNet) :
    ∀ (pre rest : List Text) (nets : List IPNet) (acc : List (Option IPNet)),
      pre.map parse = nets.map some →
      (rest = [] ∨ ∃ bad post, rest = bad :: post ∧ parse bad = none) →
      scanLoop parse (pre ++ rest) acc = acc ++ nets.map some
  | [], rest, nets, acc, hpre, hstop => by
    have hn : nets = [] := by
      cases nets with
      | nil => rfl
      | cons n ns => simp at hpre
    subst hn
    rcases hstop with h | ⟨bad, post, h, hbad⟩
    · subst h; simp [scanLoop]
    · subst h; simp [scanLoop, hbad]
  | l :: pre, rest, nets, acc, hpre, hstop => by
    cases nets with
    | nil => simp at hpre
    | cons n ns =>
      simp only [List.map_cons, List.cons.injEq] at hpre
      have ih := scanLoop_leading_run parse pre rest ns (acc ++ [some n]) hpre.2 hstop
      simp [scanLoop, hpre.1, ih]

/-! ## `strings.Index` -/

/-- Either the search answers `-1` and the text has no instance of `sep`, or it
answers the offset of the first instance. -/
theorem indexFrom_spec (sep : Text) :
    ∀ (s : Text) (i : Nat),
      (indexFrom sep i s = -1 ∧ ¬ sep <:+: s) ∨
      ∃ n : Nat, indexFrom sep i s = ((i + n : Nat) : Int) ∧ n ≤ s.length ∧
        sep <+: s.drop n ∧ ∀ k, k < n → ¬ sep <+: s.drop k
  | [], i => by
    by_cases h : sep.isPrefixOf [] = true
    · right
      refine ⟨0, by simp [indexFrom, h], by simp, ?_, by simp⟩
      simpa using List.isPrefixOf_iff_prefix.mp h
    · left
      refine ⟨by simp [indexFrom, h], ?_⟩
      intro hin
      apply h
      have : sep = [] := by simpa using hin
      subst this
      rfl
  | c :: t, i => by
    by_cases h : sep.isPrefixOf (c :: t) = true
    · right
      refine ⟨0, by simp [indexFrom, h], by simp, ?_, by simp⟩
      simpa using List.isPrefixOf_iff_prefix.mp h
    · have hnot : ¬ sep <+: c :: t := fun hp => h (List.isPrefixOf_iff_prefix.mpr hp)
      have hstep : indexFrom sep i (c :: t) = indexFrom sep (i + 1) t := by
        simp [indexFrom, h]
      rcases indexFrom_spec sep t (i + 1) with ⟨h1, h2⟩ | ⟨n, h1, h2, h3, h4⟩
      · left
        refine ⟨by rw [hstep, h1], ?_⟩
        intro hin
        rcases List.infix_cons_iff.mp hin with hp | hi
        · exact hnot hp
        · exact h2 hi
      · right
        refine ⟨n + 1, ?_, by simpa using h2, by simpa using h3, ?_⟩
        · rw [hstep, h1]; congr 1; omega
        · intro k hk
          cases k with
          | zero => simpa using hnot
          | succ k => simpa using h4 k (by omega)

/-- With no instance of the separator, `strings.Index` answers `-1`. -/
theorem stringsIndex_absent {s sep : Text} (h : ¬ sep <:+: s) : stringsIndex s sep = -1 := by
  rcases indexFrom_spec sep s 0 with ⟨h1, _⟩ | ⟨n, _, _, h3, _⟩
  · exact h1
  · exact absurd ((h3.isInfix).trans (List.drop_suffix n s).isInfix) h

/-- The answer of `strings.Index` is the offset of the first instance. -/
theorem stringsIndex_first {s sep : Text} {n : Nat} (hn : n ≤ s.length)
    (hat : sep <+: s.drop n) (hfirst : ∀ k, k < n → ¬ sep <+: s.drop k) :
    stringsIndex s sep = (n : Int) := by
  rcases indexFrom_spec sep s 0 with ⟨_, h2⟩ | ⟨m, h1, _, h3, h4⟩
  · exact absurd ((hat.isInfix).trans (List.drop_suffix n s).isInfix) h2
  · have hmn : m = n := by
      rcases Nat.lt_trichotomy m n with h | h | h
      · exact absurd h3 (hfirst m h)
      · exact h
      · exact absurd hat (h4 n h)
    subst hmn
    simpa [stringsIndex] using h1

/-- With an instance of the separator, `strings.Index` answers an offset inside
the text. -/
theorem stringsIndex_present {s sep : Text} (h : sep <:+: s) :
    ∃ n : Nat, stringsIndex s sep = (n : Int) ∧ n ≤ s.length := by
  rcases indexFrom_spec sep s 0 with ⟨_, h2⟩ | ⟨m, h1, h2, _, _⟩
  · exact absurd h h2
  · exact ⟨m, by simpa [stringsIndex] using h1, h2⟩

/-! ## Case equations of the loaders -/

section Loaders

variable {Hosts Cache : Type}

theorem getIPNetworkList_eq (w : World Hosts Cache) (c : Config Hosts Cache) :
    getIPNetworkList w c =
      ⟨[.openIPNetworkFile c.IPNetworkFile], .ret (afterIPNetworkList w c)⟩ := by
  unfold getIPNetworkList afterIPNetworkList
  cases h : w.openLines c.IPNetworkFile <;> rfl

theorem getDomainList_unreadable (w : World Hosts Cache) (c : Config Hosts Cache)
    (h : w.readFile c.DomainFile = none) :
    getDomainList w c = ⟨[.readDomainFile c.DomainFile], .ret c⟩ := by
  unfold getDomainList
  simp only [h]
  rfl

theorem getDomainList_plain (w : World Hosts Cache) (c : Config Hosts Cache) (f : Text)
    (h : w.readFile c.DomainFile = some f) (hb : c.DomainBase64Decode = false) :
    getDomainList w c =
      ⟨[.readDomainFile c.DomainFile],
        .ret { c with DomainList := domainRe.FindAllString f }⟩ := by
  unfold getDomainList
  simp only [h, hb]
  rfl

theorem getDomainList_undecodable (w : World Hosts Cache) (c : Config Hosts Cache) (f : Text)
    (h : w.readFile c.DomainFile = some f) (hb : c.DomainBase64Decode = true)
    (hd : w.decodeString f = none) :
    getDomainList w c = ⟨[.readDomainFile c.DomainFile], .ret c⟩ := by
  unfold getDomainList
  simp only [h, hb, hd]
  rfl

theorem getDomainList_base64 (w : World Hosts Cache) (c : Config Hosts Cache) (f fds : Text)
    (h : w.readFile c.DomainFile = some f) (hb : c.DomainBase64Decode = true)
    (hd : w.decodeString f = some fds) :
    getDomainList w c =
      ⟨[.readDomainFile c.DomainFile],
        match sliceTo fds (stringsIndex fds marker) with
        | none => .panic .sliceBounds
        | some pre => .ret { c with DomainList := domainRe.FindAllString pre }⟩ := by
  unfold getDomainList
  simp only [h, hb, hd]
  cases sliceTo fds (stringsIndex fds marker) <;> rfl

/-- In base64 mode a decoded text without the marker makes `getDomainList` fail
on the slice `fds[:n]` with `n = -1`. -/
theorem getDomainList_marker_absent (w : World Hosts Cache) (c : Config Hosts Cache)
    (f fds : Text) (h : w.readFile c.DomainFile = some f)
    (hb : c.DomainBase64Decode = true) (hd : w.decodeString f = some fds)
    (hno : ¬ marker <:+: fds) :
    getDomainList w c = ⟨[.readDomainFile c.DomainFile], .panic .sliceBounds⟩ := by
  rw [getDomainList_base64 w c f fds h hb hd, stringsIndex_absent hno]
  simp [sliceTo]

/-- In base64 mode a decoded text with the marker makes `getDomainList` return. -/
theorem getDomainList_marker_present (w : World Hosts Cache) (c : Config Hosts Cache)
    (f fds : Text) (h : w.readFile c.DomainFile = some f)
    (hb : c.DomainBase64Decode = true) (hd : w.decodeString f = some fds)
    (hyes : marker <:+: fds) :
    ∃ n : Nat, n ≤ fds.length ∧ getDomainList w c =
      ⟨[.readDomainFile c.DomainFile],
        .ret { c with DomainList := domainRe.FindAllString (fds.take n) }⟩ := by
  obtain ⟨n, hn, hle⟩ := stringsIndex_present hyes
  refine ⟨n, hle, ?_⟩
  rw [getDomainList_base64 w c f fds h hb hd, hn]
  simp [sliceTo, hle]

theorem getDomainList_trace (w : World Hosts Cache) (c : Config Hosts Cache) :
    (getDomainList w c).trace = [.readDomainFile c.DomainFile] := by
  cases h : w.readFile c.DomainFile with
  | none => rw [getDomainList_unreadable w c h]
  | some f =>
    cases hb : c.DomainBase64Decode with
    | false => rw [getDomainList_plain w c f h hb]
    | true =>
      cases hd : w.decodeString f with
      | none => rw [getDomainList_undecodable w c f h hb hd]
      | some fds => rw [getDomainList_base64 w c f fds h hb hd]

theorem parseJson_ok (w : World Hosts Cache) (path : String) (b : Text)
    (c : Config Hosts Cache) (hread : w.readConfig path = .data b)
    (hjson : w.unmarshal b = some c) :
    parseJson w path = ⟨[.readConfig path], .ret c⟩ := by
  unfold parseJson
  simp only [hread, hjson]
  rfl

theorem parseJson_fail (w : World Hosts Cache) (path : String)
    (h : w.readConfig path = .openError ∨ w.readConfig path = .readError ∨
      ∃ b, w.readConfig path = .data b ∧ w.unmarshal b = none) :
    parseJson w path = ⟨[.readConfig path], .exit 1⟩ := by
  unfold parseJson
  rcases h with h | h | ⟨b, h, hj⟩
  · simp only [h]; rfl
  · simp only [h]; rfl
  · simp only [h, hj]; rfl

/-- The function `parseJson` either returns the parsed configuration or ends the
process with status 1. -/
theorem parseJson_cases (w : World Hosts Cache) (path : String) :
    (∃ b c, w.readConfig path = .data b ∧ w.unmarshal b = some c ∧
        parseJson w path = ⟨[.readConfig path], .ret c⟩) ∨
      ((w.readConfig path = .openError ∨ w.readConfig path = .readError ∨
          ∃ b, w.readConfig path = .data b ∧ w.unmarshal b = none) ∧
        parseJson w path = ⟨[.readConfig path], .exit 1⟩) := by
  cases hread : w.readConfig path with
  | openError => exact Or.inr ⟨Or.inl rfl, parseJson_fail w path (Or.inl hread)⟩
  | readError =>
    exact Or.inr ⟨Or.inr (Or.inl rfl), parseJson_fail w path (Or.inr (Or.inl hread))⟩
  | data b =>
    cases hjson : w.unmarshal b with
    | none =>
      exact Or.inr ⟨Or.inr (Or.inr ⟨b, rfl, hjson⟩),
        parseJson_fail w path (Or.inr (Or.inr ⟨b, hread, hjson⟩))⟩
    | some c => exact Or.inl ⟨b, c, rfl, hjson, parseJson_ok w path b c hread hjson⟩

theorem NewConfig_of_parse_fail (w : World Hosts Cache) (path : String)
    (h : parseJson w path = ⟨[.readConfig path], .exit 1⟩) :
    NewConfig w path = ⟨[.readConfig path], .exit 1⟩ := by
  unfold NewConfig
  rw [bind_eq_andThen, h]
  rfl

/-- When the configuration file parses, `NewConfig` ends the way the domain
step ends; when that step returns, the cache and hosts steps follow. -/
theorem NewConfig_of_parse_ok (w : World Hosts Cache) (path : String)
    (c0 : Config Hosts Cache) (h : parseJson w path = ⟨[.readConfig path], .ret c0⟩) :
    NewConfig w path =
      match (getDomainList w (afterIPNetworkList w c0)).outcome with
      | .ret c2 =>
        ⟨[.readConfig path, .openIPNetworkFile c0.IPNetworkFile,
            .readDomainFile (afterIPNetworkList w c0).DomainFile,
            .cacheNew c2.CacheSize, .hostsNew c2.HostsFile],
          .ret (afterCacheHosts w c2)⟩
      | .exit n =>
        ⟨[.readConfig path, .openIPNetworkFile c0.IPNetworkFile,
            .readDomainFile (afterIPNetworkList w c0).DomainFile], .exit n⟩
      | .panic e =>
        ⟨[.readConfig path, .openIPNetworkFile c0.IPNetworkFile,
            .readDomainFile (afterIPNetworkList w c0).DomainFile], .panic e⟩ := by
  have htr := getDomainList_trace w (afterIPNetworkList w c0)
  unfold NewConfig
  rw [bind_eq_andThen, h]
  cases hdl : (getDomainList w (afterIPNetworkList w c0)).outcome with
  | ret c2 =>
    cases hh : w.hostsNew c2.HostsFile <;>
      simp [bind_eq_andThen, Run.andThen, getIPNetworkList_eq, hdl, htr, Run.emit,
        pure_eq_ret, Run.ret, afterCacheHosts, hh]
  | exit n =>
    simp [bind_eq_andThen, Run.andThen, getIPNetworkList_eq, hdl, htr]
  | panic e =>
    simp [bind_eq_andThen, Run.andThen, getIPNetworkList_eq, hdl, htr]

theorem InitServer_of_exit (w : World Hosts Cache) (path socksAddr : String) (n : Nat)
    (h : (NewConfig w path).outcome = .exit n) :
    InitServer w path socksAddr = ⟨(NewConfig w path).trace, .exit n⟩ := by
  unfold InitServer
  rw [bind_eq_andThen]
  exact andThen_of_exit h _

theorem InitServer_of_panic (w : World Hosts Cache) (path socksAddr : String) (e : Fault)
    (h : (NewConfig w path).outcome = .panic e) :
    InitServer w path socksAddr = ⟨(NewConfig w path).trace, .panic e⟩ := by
  unfold InitServer
  rw [bind_eq_andThen]
  exact andThen_of_panic h _

theorem InitServer_ok (w : World Hosts Cache) (path socksAddr : String)
    (cfg : Config Hosts Cache) (p0 : DNSUpstream) (ps : List (Option DNSUpstream))
    (a0 : DNSUpstream) (as : List (Option DNSUpstream))
    (hcfg : (NewConfig w path).outcome = .ret cfg)
    (hP : cfg.PrimaryDNS = some p0 :: ps) (hA : cfg.AlternativeDNS = some a0 :: as) :
    InitServer w path socksAddr =
      ⟨(NewConfig w path).trace ++ [.newDispatcher, .newServer, .serverRun],
        .ret (serverOf cfg socksAddr p0 ps a0 as)⟩ := by
  unfold InitServer
  rw [bind_eq_andThen]
  simp [Run.andThen, hcfg, hP, hA, assignFirst, bind_eq_andThen, pure_eq_ret, Run.ret,
    Run.emit, serverOf]

theorem InitServer_primary_fails (w : World Hosts Cache) (path socksAddr : String)
    (cfg : Config Hosts Cache) (hcfg : (NewConfig w path).outcome = .ret cfg)
    (hP : cfg.PrimaryDNS = [] ∨ ∃ ps, cfg.PrimaryDNS = none :: ps) :
    ∃ e, InitServer w path socksAddr = ⟨(NewConfig w path).trace, .panic e⟩ := by
  unfold InitServer
  rw [bind_eq_andThen]
  rcases hP with hP | ⟨ps, hP⟩
  · exact ⟨.indexOutOfRange, by
      simp [Run.andThen, hcfg, hP, assignFirst, bind_eq_andThen, Run.panic]⟩
  · exact ⟨.nilDereference, by
      simp [Run.andThen, hcfg, hP, assignFirst, bind_eq_andThen, Run.panic]⟩

theorem InitServer_alternative_fails (w : World Hosts Cache) (path socksAddr : String)
    (cfg : Config Hosts Cache) (p0 : DNSUpstream) (ps : List (Option DNSUpstream))
    (hcfg : (NewConfig w path).outcome = .ret cfg)
    (hP : cfg.PrimaryDNS = some p0 :: ps)
    (hA : cfg.AlternativeDNS = [] ∨ ∃ as, cfg.AlternativeDNS = none :: as) :
    ∃ e, InitServer w path socksAddr = ⟨(NewConfig w path).trace, .panic e⟩ := by
  unfold InitServer
  rw [bind_eq_andThen]
  rcases hA with hA | ⟨as, hA⟩
  · exact ⟨.indexOutOfRange, by
      simp [Run.andThen, hcfg, hP, hA, assignFirst, bind_eq_andThen, Run.panic, pure_eq_ret,
        Run.ret]⟩
  · exact ⟨.nilDereference, by
      simp [Run.andThen, hcfg, hP, hA, assignFirst, bind_eq_andThen, Run.panic, pure_eq_ret,
        Run.ret]⟩

/-- The steps of loading never include building the dispatcher. -/
theorem NewConfig_trace_no_dispatcher (w : World Hosts Cache) (path : String) :
    Event.newDispatcher ∉ (NewConfig w path).trace := by
  rcases parseJson_cases w path with ⟨b, c, _, _, h⟩ | ⟨_, h⟩
  · rw [NewConfig_of_parse_ok w path c h]
    cases (getDomainList w (afterIPNetworkList w c)).outcome <;> simp
  · rw [NewConfig_of_parse_fail w path h]
    simp

end Loaders

/-! ## The IP-network file -/

section IPNetworkFile

variable {Hosts Cache : Type}

/-- Every sequence of lines splits into a leading run of lines that parse and a
rest that is empty or starts with a line that does not parse. -/
theorem leading_run_exists (parse : Text → Option IPNet) :
    ∀ ls : List Text, ∃ (pre rest : List Text) (nets : List IPNet),
      ls = pre ++ rest ∧ pre.map parse = nets.map some ∧
      (rest = [] ∨ ∃ bad post, rest = bad :: post ∧ parse bad = none)
  | [] => ⟨[], [], [], rfl, rfl, Or.inl rfl⟩
  | l :: ls => by
    cases hl : parse l with
    | none => exact ⟨[], l :: ls, [], rfl, rfl, Or.inr ⟨l, ls, rfl, hl⟩⟩
    | some n =>
      obtain ⟨pre, rest, nets, h1, h2, h3⟩ := leading_run_exists parse ls
      exact ⟨l :: pre, rest, n :: nets, by rw [h1]; rfl, by simp [hl, h2], h3⟩

/-- C1: when the IP-network file opens with the lines `ls`, the lines split as
`ls = pre ++ rest`, where every line of `pre` parses as CIDR notation and `rest` is
empty or starts with a line that does not parse; for every such split, `nets` being
the networks of `pre` in order, `getIPNetworkList` returns and sets
`IPNetworkList` to exactly `nets`: loading ends at the first line that fails to
parse, the lines after it are ignored whatever they are, and no error is raised. -/
theorem getIPNetworkList_leading_run (w : World Hosts Cache) (c : Config Hosts Cache)
    (ls : List Text) (hopen : w.openLines c.IPNetworkFile = some ls) :
    (∃ (pre rest : List Text) (nets : List IPNet),
        ls = pre ++ rest ∧ pre.map w.parseCIDR = nets.map some ∧
        (rest = [] ∨ ∃ bad post, rest = bad :: post ∧ w.parseCIDR bad = none)) ∧
      ∀ (pre rest : List Text) (nets : List IPNet),
        ls = pre ++ rest → pre.map w.parseCIDR = nets.map some →
        (rest = [] ∨ ∃ bad post, rest = bad :: post ∧ w.parseCIDR bad = none) →
        getIPNetworkList w c =
          ⟨[.openIPNetworkFile c.IPNetworkFile],
            .ret { c with IPNetworkList := nets.map some }⟩ := by
  refine ⟨leading_run_exists w.parseCIDR ls, ?_⟩
  intro pre rest nets hls hpre hstop
  rw [getIPNetworkList_eq]
  unfold afterIPNetworkList
  simp only [hopen, hls]
  rw [scanLoop_leading_run w.parseCIDR pre rest nets [] hpre hstop]
  rfl

/-- Witness of C1: a file with a network, a blank line and a second network
loads the first network only. -/
theorem getIPNetworkList_leading_run_witness :
    getIPNetworkList (ipWorld ["10.0.0.0/8", "", "192.168.0.0/16"]) ipConfig =
      ⟨[.openIPNetworkFile "ip_network.txt"],
        .ret { ipConfig with IPNetworkList := [some ⟨[10, 0, 0, 0], [255, 0, 0, 0]⟩] }⟩ :=
  (getIPNetworkList_leading_run (ipWorld ["10.0.0.0/8", "", "192.168.0.0/16"]) ipConfig
    ["10.0.0.0/8".toList, "".toList, "192.168.0.0/16".toList] (by decide)).2
    ["10.0.0.0/8".toList] ["".toList, "192.168.0.0/16".toList] [⟨[10, 0, 0, 0], [255, 0, 0, 0]⟩]
    rfl (by decide) (Or.inr ⟨"".toList, ["192.168.0.0/16".toList], rfl, by decide⟩)

end IPNetworkFile

/-! ## The domain file -/

section DomainFile

variable {Hosts Cache : Type}

/-- A text containing the separator splits at its first instance. -/
theorem first_instance_exists {sep s : Text} (h : sep <:+: s) :
    ∃ pre post, s = pre ++ sep ++ post ∧ ∀ k, k < pre.length → ¬ sep <+: s.drop k := by
  rcases indexFrom_spec sep s 0 with ⟨_, h2⟩ | ⟨n, _, hn, ⟨post, hpost⟩, hfirst⟩
  · exact absurd h h2
  · refine ⟨s.take n, post, ?_, ?_⟩
    · rw [List.append_assoc, hpost, List.take_append_drop]
    · intro k hk
      exact hfirst k (by simpa [Nat.min_eq_left hn] using hk)

/-- When the decoded text is `pre ++ marker ++ post` with no instance of the
marker starting inside `pre`, the list is the matches of `pre`. -/
theorem getDomainList_of_split (w : World Hosts Cache) (c : Config Hosts Cache)
    (f pre post : Text) (hb : c.DomainBase64Decode = true)
    (h : w.readFile c.DomainFile = some f)
    (hd : w.decodeString f = some (pre ++ marker ++ post))
    (hfirst : ∀ k, k < pre.length → ¬ marker <+: (pre ++ marker ++ post).drop k) :
    (getDomainList w c).outcome = .ret { c with DomainList := domainRe.FindAllString pre } := by
  have hidx : stringsIndex (pre ++ marker ++ post) marker = (pre.length : Int) := by
    apply stringsIndex_first
    · simp
    · simp [List.append_assoc]
    · exact hfirst
  have hs : sliceTo (pre ++ marker ++ post) (pre.length : Int) = some pre := by
    unfold sliceTo
    rw [if_pos ⟨by omega, by simp only [List.length_append]; push_cast; omega⟩]
    simp [List.append_assoc]
  rw [getDomainList_base64 w c f _ h hb hd, hidx, hs]

/-- C2: in base64 mode, when the domain file decodes to a text `fds` containing
the marker `Whitelist Start`, the text splits as `fds = pre ++ marker ++ post`
with no instance of the marker starting inside `pre` (so the one after `pre` is the
first); for every such split `getDomainList` returns and sets `DomainList` to
exactly the matches of the pattern in `pre`, so nothing at or after the marker
contributes, and with the marker at offset 0 (`pre` empty) the list is empty. -/
theorem getDomainList_base64_before_marker (w : World Hosts Cache) (c : Config Hosts Cache)
    (f fds : Text) (hb : c.DomainBase64Decode = true)
    (h : w.readFile c.DomainFile = some f) (hd : w.decodeString f = some fds)
    (hyes : marker <:+: fds) :
    (∃ pre post, fds = pre ++ marker ++ post ∧
        ∀ k, k < pre.length → ¬ marker <+: fds.drop k) ∧
      ∀ pre post, fds = pre ++ marker ++ post →
        (∀ k, k < pre.length → ¬ marker <+: fds.drop k) →
        (getDomainList w c).outcome =
            .ret { c with DomainList := domainRe.FindAllString pre } ∧
          (pre = [] → (getDomainList w c).outcome = .ret { c with DomainList := [] }) := by
  refine ⟨first_instance_exists hyes, ?_⟩
  intro pre post hsplit hfirst
  subst hsplit
  have hout := getDomainList_of_split w c f pre post hb h hd hfirst
  refine ⟨hout, ?_⟩
  intro hnil
  rw [hout, hnil]
  rfl

/-- Witness of C2: the file is the base64 text of `a.b/* Whitelist Start c.d`;
only the match before the marker is loaded. -/
theorem getDomainList_base64_before_marker_witness :
    (getDomainList (domainWorld "YS5iLyogV2hpdGVsaXN0IFN0YXJ0IGMuZA==") (domainConfig true)).outcome =
      .ret { domainConfig true with DomainList := ["a.b/*".toList] } :=
  ((getDomainList_base64_before_marker (domainWorld "YS5iLyogV2hpdGVsaXN0IFN0YXJ0IGMuZA==")
    (domainConfig true) "YS5iLyogV2hpdGVsaXN0IFN0YXJ0IGMuZA==".toList
    "a.b/* Whitelist Start c.d".toList rfl (by decide) (by decide)
    ⟨"a.b/* ".toList, " c.d".toList, rfl⟩).2
    "a.b/* ".toList " c.d".toList rfl (by decide)).1

/-- C3: in base64 mode, with a domain file holding `ZXhhbXBsZS5jb20=` (the base64
text of `example.com`, which has no marker), `getDomainList` does not complete: it
fails at run time on the slice, and `DomainList` is not set. -/
theorem getDomainList_base64_without_marker_fails :
    stdDecodeString "ZXhhbXBsZS5jb20=".toList = some "example.com".toList ∧
      stringsIndex "example.com".toList marker = -1 ∧
      getDomainList (domainWorld "ZXhhbXBsZS5jb20=") (domainConfig true) =
        ⟨[.readDomainFile "domain.txt"], .panic .sliceBounds⟩ := by
  refine ⟨by decide, by decide, ?_⟩
  exact getDomainList_marker_absent _ _ "ZXhhbXBsZS5jb20=".toList "example.com".toList
    (by decide) rfl (by decide) (by decide)

/-- C8: in plain mode, with a domain file holding `example.com/path`,
`getDomainList` puts the entry `example.com/` in `DomainList`: the entry is the
whole match, trailing `/` included, not the text of the parenthesised group. -/
theorem getDomainList_entry_with_slash :
    (getDomainList (domainWorld "example.com/path") (domainConfig false)).outcome =
        .ret { domainConfig false with DomainList := ["example.com/".toList] } ∧
      '/' ∈ "example.com/".toList := by
  refine ⟨?_, by decide⟩
  rw [getDomainList_plain _ _ "example.com/path".toList (by decide) rfl]
  have : domainRe.FindAllString "example.com/path".toList = ["example.com/".toList] := by
    decide
  simp only [this]

end DomainFile

/-! ## `NewConfig` -/

section Loading

variable {Hosts Cache : Type}

/-- Unless base64 mode meets a decoded text without the marker, `getDomainList`
returns, changes no field but `DomainList`, and leaves `DomainList` as it was when
the file cannot be read. -/
theorem getDomainList_returns (w : World Hosts Cache) (c : Config Hosts Cache)
    (hmarker : ∀ f fds, c.DomainBase64Decode = true → w.readFile c.DomainFile = some f →
      w.decodeString f = some fds → marker <:+: fds) :
    ∃ dl, (getDomainList w c).outcome = .ret { c with DomainList := dl } ∧
      (w.readFile c.DomainFile = none → dl = c.DomainList) := by
  cases h : w.readFile c.DomainFile with
  | none => exact ⟨c.DomainList, by rw [getDomainList_unreadable w c h], fun _ => rfl⟩
  | some f =>
    rcases Bool.eq_false_or_eq_true c.DomainBase64Decode with hb | hb
    · cases hd : w.decodeString f with
      | none =>
        exact ⟨c.DomainList, by rw [getDomainList_undecodable w c f h hb hd],
          fun hn => by simp at hn⟩
      | some fds =>
        obtain ⟨n, _, hn⟩ := getDomainList_marker_present w c f fds h hb hd
          (hmarker f fds hb h hd)
        exact ⟨_, by rw [hn], fun hn => by simp at hn⟩
    · exact ⟨_, by rw [getDomainList_plain w c f h hb], fun hn => by simp at hn⟩

/-- C4 (as stated, refuted): the configuration file gives a domain list and names
a domain file that cannot be read; `NewConfig` returns, and the returned
`DomainList` is the list of the configuration file, not the empty list. -/
theorem NewConfig_keeps_preset_domain_list :
    (configWorld presetJson presetConfig).readFile presetConfig.DomainFile = none ∧
      ∃ c, (NewConfig (configWorld presetJson presetConfig) "config.json").outcome = .ret c ∧
        c.DomainList = ["preset.example".toList] ∧ c.DomainList ≠ [] :=
  ⟨rfl, { presetConfig with Cache := some () }, by decide, rfl, by decide⟩

/-- C4 (amended): for every configuration `c0` parsed from the configuration
file, unless base64 mode meets a decoded domain text without the marker,
`NewConfig` returns; if the IP-network file cannot be opened the returned
`IPNetworkList` is the one `c0` has (empty when the configuration file gives
none), if the domain file cannot be read the returned `DomainList` is the one `c0`
has, and if the hosts file fails to load the returned `Hosts` is the one `c0` has
(unset when the configuration file gives none). -/
theorem NewConfig_load_failure_keeps_parsed (w : World Hosts Cache) (path : String)
    (b : Text) (c0 : Config Hosts Cache) (hread : w.readConfig path = .data b)
    (hjson : w.unmarshal b = some c0)
    (hmarker : ∀ f fds, c0.DomainBase64Decode = true → w.readFile c0.DomainFile = some f →
      w.decodeString f = some fds → marker <:+: fds) :
    ∃ c, (NewConfig w path).outcome = .ret c ∧
      (w.openLines c0.IPNetworkFile = none → c.IPNetworkList = c0.IPNetworkList) ∧
      (w.readFile c0.DomainFile = none → c.DomainList = c0.DomainList) ∧
      (w.hostsNew c0.HostsFile = .error → c.Hosts = c0.Hosts) := by
  have hfile : (afterIPNetworkList w c0).DomainFile = c0.DomainFile := by
    unfold afterIPNetworkList; cases w.openLines c0.IPNetworkFile <;> rfl
  have hmode : (afterIPNetworkList w c0).DomainBase64Decode = c0.DomainBase64Decode := by
    unfold afterIPNetworkList; cases w.openLines c0.IPNetworkFile <;> rfl
  have hhosts : (afterIPNetworkList w c0).HostsFile = c0.HostsFile := by
    unfold afterIPNetworkList; cases w.openLines c0.IPNetworkFile <;> rfl
  have hH : (afterIPNetworkList w c0).Hosts = c0.Hosts := by
    unfold afterIPNetworkList; cases w.openLines c0.IPNetworkFile <;> rfl
  have hD : (afterIPNetworkList w c0).DomainList = c0.DomainList := by
    unfold afterIPNetworkList; cases w.openLines c0.IPNetworkFile <;> rfl
  obtain ⟨dl, hdl, hkeep⟩ := getDomainList_returns w (afterIPNetworkList w c0) (by
    intro f fds h1 h2 h3
    exact hmarker f fds (hmode ▸ h1) (hfile ▸ h2) h3)
  refine ⟨afterCacheHosts w { afterIPNetworkList w c0 with DomainList := dl }, ?_, ?_, ?_, ?_⟩
  · rw [NewConfig_of_parse_ok w path c0 (parseJson_ok w path b c0 hread hjson), hdl]
  · intro hopen
    unfold afterCacheHosts
    have : (afterIPNetworkList w c0).IPNetworkList = c0.IPNetworkList := by
      unfold afterIPNetworkList; rw [hopen]
    cases w.hostsNew (afterIPNetworkList w c0).HostsFile <;> exact this
  · intro hno
    have hdl2 : dl = c0.DomainList := (hkeep (hfile ▸ hno)).trans hD
    unfold afterCacheHosts
    cases w.hostsNew (afterIPNetworkList w c0).HostsFile <;> exact hdl2
  · intro herr
    unfold afterCacheHosts
    simp only [hhosts, herr]
    exact hH

/-- Witness of C4 (amended): with no IP-network file, no domain file and no hosts
file, `NewConfig` returns the three fields as the configuration file gives them. -/
theorem NewConfig_load_failure_keeps_parsed_witness :
    ∃ c, (NewConfig (configWorld settingsJson settingsConfig) "config.json").outcome = .ret c ∧
      ((configWorld settingsJson settingsConfig).openLines settingsConfig.IPNetworkFile = none →
        c.IPNetworkList = settingsConfig.IPNetworkList) ∧
      ((configWorld settingsJson settingsConfig).readFile settingsConfig.DomainFile = none →
        c.DomainList = settingsConfig.DomainList) ∧
      ((configWorld settingsJson settingsConfig).hostsNew settingsConfig.HostsFile = .error →
        c.Hosts = settingsConfig.Hosts) :=
  NewConfig_load_failure_keeps_parsed (configWorld settingsJson settingsConfig) "config.json"
    settingsJson.toList settingsConfig rfl rfl
    (fun _ _ hb => absurd hb (by decide))

/-- C5: when the configuration file cannot be opened, cannot be read or does not
parse as JSON, `NewConfig` returns no configuration: it ends the process with
status 1 having done nothing but read the configuration file (no IP-network,
domain, cache or hosts step), and `InitServer` ends the same way, before the
dispatcher is built and before the listener is started. -/
theorem config_error_exits_before_loading (w : World Hosts Cache) (path socksAddr : String)
    (h : w.readConfig path = .openError ∨ w.readConfig path = .readError ∨
      ∃ b, w.readConfig path = .data b ∧ w.unmarshal b = none) :
    (∀ c, (NewConfig w path).outcome ≠ .ret c) ∧
      NewConfig w path = ⟨[.readConfig path], .exit 1⟩ ∧
      InitServer w path socksAddr = ⟨[.readConfig path], .exit 1⟩ := by
  have hN := NewConfig_of_parse_fail w path (parseJson_fail w path h)
  refine ⟨?_, hN, ?_⟩
  · intro c hc
    rw [hN] at hc
    cases hc
  · have := InitServer_of_exit w path socksAddr 1 (by rw [hN])
    rw [this, hN]

/-- Witness of C5: the configuration file holds text that is not JSON. -/
theorem config_error_exits_before_loading_witness :
    (∀ c, (NewConfig badJsonWorld "config.json").outcome ≠ .ret c) ∧
      NewConfig badJsonWorld "config.json" =
        ⟨[.readConfig "config.json"], .exit 1⟩ ∧
      InitServer badJsonWorld "config.json" "127.0.0.1:1080" =
        ⟨[.readConfig "config.json"], .exit 1⟩ :=
  config_error_exits_before_loading badJsonWorld "config.json"
    "127.0.0.1:1080" (Or.inr (Or.inr ⟨"PrimaryDNS:".toList, by decide, by decide⟩))

end Loading

/-! ## `InitServer` -/

section Startup

variable {Hosts Cache : Type}

/-- C6 (as stated, refuted): with two primary upstreams configured, the second
primary upstream handed to the dispatcher keeps its configured (empty) SOCKS5
address instead of the address passed to `InitServer`. -/
theorem InitServer_second_upstream_keeps_socks :
    ∃ s, (InitServer (configWorld twoPrimaryJson twoPrimaryConfig) "config.json"
        "127.0.0.1:1080").outcome = .ret s ∧
      ∃ u, some u ∈ s.Dispatcher.PrimaryDNS ∧ u.SOCKS5Address = "" ∧
        u.SOCKS5Address ≠ "127.0.0.1:1080" :=
  ⟨serverOf { twoPrimaryConfig with Cache := some () } "127.0.0.1:1080"
      (upstream "8.8.8.8:53" "udp") [some (upstream "8.8.4.4:53" "udp")]
      (upstream "1.1.1.1:53" "tcp") [],
    by decide, upstream "8.8.4.4:53" "udp", by decide, rfl, by decide⟩

/-- C6 (amended): for every loaded configuration whose upstream lists start with
the upstreams `p0` and `a0`, and every `socksAddr`, the first upstream of
`PrimaryDNS` and the first upstream of `AlternativeDNS` handed to the dispatcher
have `SOCKS5Address` equal to `socksAddr`; the upstreams after the first are
handed over as configured. -/
theorem InitServer_socks_first_upstream (w : World Hosts Cache) (path socksAddr : String)
    (cfg : Config Hosts Cache) (p0 : DNSUpstream) (ps : List (Option DNSUpstream))
    (a0 : DNSUpstream) (as : List (Option DNSUpstream))
    (hcfg : (NewConfig w path).outcome = .ret cfg)
    (hP : cfg.PrimaryDNS = some p0 :: ps) (hA : cfg.AlternativeDNS = some a0 :: as) :
    ∃ s p1 a1, (InitServer w path socksAddr).outcome = .ret s ∧
      s.Dispatcher.PrimaryDNS = some p1 :: ps ∧ p1.SOCKS5Address = socksAddr ∧
      s.Dispatcher.AlternativeDNS = some a1 :: as ∧ a1.SOCKS5Address = socksAddr := by
  refine ⟨serverOf cfg socksAddr p0 ps a0 as, _, _, ?_, rfl, rfl, rfl, rfl⟩
  rw [InitServer_ok w path socksAddr cfg p0 ps a0 as hcfg hP hA]

/-- Witness of C6 (amended): two primary upstreams and one alternative upstream. -/
theorem InitServer_socks_first_upstream_witness :
    ∃ s p1 a1, (InitServer (configWorld twoPrimaryJson twoPrimaryConfig) "config.json"
        "127.0.0.1:1080").outcome = .ret s ∧
      s.Dispatcher.PrimaryDNS = some p1 :: [some (upstream "8.8.4.4:53" "udp")] ∧
      p1.SOCKS5Address = "127.0.0.1:1080" ∧
      s.Dispatcher.AlternativeDNS = some a1 :: [] ∧ a1.SOCKS5Address = "127.0.0.1:1080" :=
  InitServer_socks_first_upstream (configWorld twoPrimaryJson twoPrimaryConfig) "config.json"
    "127.0.0.1:1080" { twoPrimaryConfig with Cache := some () } (upstream "8.8.8.8:53" "udp")
    [some (upstream "8.8.4.4:53" "udp")] (upstream "1.1.1.1:53" "tcp") [] (by decide) rfl rfl

/-- C7 (as stated, refuted): the first primary upstream is configured with
protocol `udp` and is handed to the dispatcher with protocol `tcp`. -/
theorem InitServer_forces_tcp :
    settingsConfig.PrimaryDNS = [some (upstream "8.8.8.8:53" "udp")] ∧
      ∃ s, (InitServer (configWorld settingsJson settingsConfig) "config.json"
          "127.0.0.1:1080").outcome = .ret s ∧
        s.Dispatcher.PrimaryDNS.map (Option.map DNSUpstream.Protocol) = [some "tcp"] :=
  ⟨rfl, serverOf { settingsConfig with Cache := some () } "127.0.0.1:1080"
      (upstream "8.8.8.8:53" "udp") [] (upstream "1.1.1.1:53" "tcp") [],
    by decide, by decide⟩

/-- C7 (amended): for every loaded configuration whose upstream lists start with
the upstreams `p0` and `a0`, the first upstream of `PrimaryDNS` is handed to the
dispatcher with protocol `tcp` and with the address and timeout the configuration
gave it, the first upstream of `AlternativeDNS` with the protocol, address and
timeout the configuration gave it, and the upstreams after the first are handed
over as configured. -/
theorem InitServer_upstream_frame (w : World Hosts Cache) (path socksAddr : String)
    (cfg : Config Hosts Cache) (p0 : DNSUpstream) (ps : List (Option DNSUpstream))
    (a0 : DNSUpstream) (as : List (Option DNSUpstream))
    (hcfg : (NewConfig w path).outcome = .ret cfg)
    (hP : cfg.PrimaryDNS = some p0 :: ps) (hA : cfg.AlternativeDNS = some a0 :: as) :
    ∃ s p1 a1, (InitServer w path socksAddr).outcome = .ret s ∧
      s.Dispatcher.PrimaryDNS = some p1 :: ps ∧
      p1.Protocol = "tcp" ∧ p1.Address = p0.Address ∧ p1.Timeout = p0.Timeout ∧
      s.Dispatcher.AlternativeDNS = some a1 :: as ∧
      a1.Protocol = a0.Protocol ∧ a1.Address = a0.Address ∧ a1.Timeout = a0.Timeout := by
  refine ⟨serverOf cfg socksAddr p0 ps a0 as, _, _, ?_, rfl, rfl, rfl, rfl, rfl, rfl, rfl, rfl⟩
  rw [InitServer_ok w path socksAddr cfg p0 ps a0 as hcfg hP hA]

/-- Witness of C7 (amended): a primary upstream over UDP and an alternative
upstream over TCP. -/
theorem InitServer_upstream_frame_witness :
    ∃ s p1 a1, (InitServer (configWorld settingsJson settingsConfig) "config.json"
        "127.0.0.1:1080").outcome = .ret s ∧
      s.Dispatcher.PrimaryDNS = some p1 :: [] ∧
      p1.Protocol = "tcp" ∧ p1.Address = (upstream "8.8.8.8:53" "udp").Address ∧
      p1.Timeout = (upstream "8.8.8.8:53" "udp").Timeout ∧
      s.Dispatcher.AlternativeDNS = some a1 :: [] ∧
      a1.Protocol = (upstream "1.1.1.1:53" "tcp").Protocol ∧
      a1.Address = (upstream "1.1.1.1:53" "tcp").Address ∧
      a1.Timeout = (upstream "1.1.1.1:53" "tcp").Timeout :=
  InitServer_upstream_frame (configWorld settingsJson settingsConfig) "config.json"
    "127.0.0.1:1080" { settingsConfig with Cache := some () } (upstream "8.8.8.8:53" "udp") []
    (upstream "1.1.1.1:53" "tcp") [] (by decide) rfl rfl

/-- C9 (as stated, refuted): the loaded configuration has a non-null upstream in
`PrimaryDNS` and one in `AlternativeDNS`, yet `InitServer` fails at run time on the
first element of `PrimaryDNS`, which is null, and builds no dispatcher. -/
theorem InitServer_null_first_upstream :
    ∃ cfg, (NewConfig (configWorld nullFirstJson nullFirstConfig) "config.json").outcome =
        .ret cfg ∧
      (∃ u, some u ∈ cfg.PrimaryDNS) ∧ (∃ u, some u ∈ cfg.AlternativeDNS) ∧
      (InitServer (configWorld nullFirstJson nullFirstConfig) "config.json"
        "127.0.0.1:1080").outcome = .panic .nilDereference ∧
      Event.newDispatcher ∉ (InitServer (configWorld nullFirstJson nullFirstConfig)
        "config.json" "127.0.0.1:1080").trace :=
  ⟨{ nullFirstConfig with Cache := some () }, by decide,
    ⟨upstream "8.8.8.8:53" "udp", by decide⟩, ⟨upstream "1.1.1.1:53" "tcp", by decide⟩,
    by decide, by decide⟩

/-- C9 (amended): for every loaded configuration, `InitServer` reaches the
construction of the dispatcher if and only if `PrimaryDNS` has a first element
that is not null and `AlternativeDNS` has a first element that is not null; when
that holds it goes on to start the server, and otherwise it fails at run time.
The condition does not mention `OnlyPrimaryDNS`. -/
theorem InitServer_reaches_dispatcher_iff (w : World Hosts Cache) (path socksAddr : String)
    (cfg : Config Hosts Cache) (hcfg : (NewConfig w path).outcome = .ret cfg) :
    (Event.newDispatcher ∈ (InitServer w path socksAddr).trace ↔
        (∃ p0 ps, cfg.PrimaryDNS = some p0 :: ps) ∧
          (∃ a0 as, cfg.AlternativeDNS = some a0 :: as)) ∧
      ((∃ p0 ps, cfg.PrimaryDNS = some p0 :: ps) ∧
          (∃ a0 as, cfg.AlternativeDNS = some a0 :: as) →
        ∃ s, (InitServer w path socksAddr).outcome = .ret s) ∧
      (¬ ((∃ p0 ps, cfg.PrimaryDNS = some p0 :: ps) ∧
          (∃ a0 as, cfg.AlternativeDNS = some a0 :: as)) →
        ∃ e, (InitServer w path socksAddr).outcome = .panic e) := by
  have hno := NewConfig_trace_no_dispatcher w path
  have hfail : ¬ ((∃ p0 ps, cfg.PrimaryDNS = some p0 :: ps) ∧
      (∃ a0 as, cfg.AlternativeDNS = some a0 :: as)) →
      ∃ e, InitServer w path socksAddr = ⟨(NewConfig w path).trace, .panic e⟩ := by
    intro hnot
    rcases hP : cfg.PrimaryDNS with _ | ⟨_ | p0, ps⟩
    · exact InitServer_primary_fails w path socksAddr cfg hcfg (Or.inl hP)
    · exact InitServer_primary_fails w path socksAddr cfg hcfg (Or.inr ⟨ps, hP⟩)
    · rcases hA : cfg.AlternativeDNS with _ | ⟨_ | a0, as⟩
      · exact InitServer_alternative_fails w path socksAddr cfg p0 ps hcfg hP (Or.inl hA)
      · exact InitServer_alternative_fails w path socksAddr cfg p0 ps hcfg hP
          (Or.inr ⟨as, hA⟩)
      · exact absurd ⟨⟨p0, ps, hP⟩, ⟨a0, as, hA⟩⟩ hnot
  have hok : (∃ p0 ps, cfg.PrimaryDNS = some p0 :: ps) ∧
      (∃ a0 as, cfg.AlternativeDNS = some a0 :: as) →
      ∃ s, InitServer w path socksAddr =
        ⟨(NewConfig w path).trace ++ [.newDispatcher, .newServer, .serverRun], .ret s⟩ := by
    rintro ⟨⟨p0, ps, hP⟩, ⟨a0, as, hA⟩⟩
    exact ⟨_, InitServer_ok w path socksAddr cfg p0 ps a0 as hcfg hP hA⟩
  refine ⟨⟨?_, ?_⟩, ?_, ?_⟩
  · intro hmem
    by_contra hnot
    obtain ⟨e, he⟩ := hfail hnot
    rw [he] at hmem
    exact hno hmem
  · intro hc
    obtain ⟨s, hs⟩ := hok hc
    rw [hs]
    simp
  · intro hc
    obtain ⟨s, hs⟩ := hok hc
    exact ⟨s, by rw [hs]⟩
  · intro hnot
    obtain ⟨e, he⟩ := hfail hnot
    exact ⟨e, by rw [he]⟩

/-- Witness of C9 (amended): with `OnlyPrimaryDNS` set and one upstream in each
list the dispatcher is built. -/
theorem InitServer_reaches_dispatcher_iff_witness :
    Event.newDispatcher ∈ (InitServer (configWorld settingsJson settingsConfig) "config.json"
      "127.0.0.1:1080").trace :=
  (InitServer_reaches_dispatcher_iff (configWorld settingsJson settingsConfig) "config.json"
    "127.0.0.1:1080" { settingsConfig with Cache := some () } (by decide)).1.2
    ⟨⟨upstream "8.8.8.8:53" "udp", [], rfl⟩, ⟨upstream "1.1.1.1:53" "tcp", [], rfl⟩⟩

/-- C10: for every configuration `cfg` returned by `NewConfig`, whenever
`InitServer` builds the dispatcher and the server (which it does as soon as both
upstream lists start with an upstream), the dispatcher has `OnlyPrimaryDNS`,
`RedirectIPv6Record`, `IPNetworkList` and `DomainList` equal to those of `cfg`, and
the server, which holds that dispatcher, has `BindAddress`, `MinimumTTL`,
`RejectQtype`, `Hosts` and `Cache` equal to those of `cfg`. -/
theorem InitServer_passes_settings (w : World Hosts Cache) (path socksAddr : String)
    (cfg : Config Hosts Cache) (hcfg : (NewConfig w path).outcome = .ret cfg) :
    (∀ s, (InitServer w path socksAddr).outcome = .ret s →
        s.Dispatcher.OnlyPrimaryDNS = cfg.OnlyPrimaryDNS ∧
        s.Dispatcher.RedirectIPv6Record = cfg.RedirectIPv6Record ∧
        s.Dispatcher.IPNetworkList = cfg.IPNetworkList ∧
        s.Dispatcher.DomainList = cfg.DomainList ∧
        s.BindAddress = cfg.BindAddress ∧ s.MinimumTTL = cfg.MinimumTTL ∧
        s.RejectQtype = cfg.RejectQtype ∧ s.Hosts = cfg.Hosts ∧ s.Cache = cfg.Cache) ∧
      (∀ p0 ps a0 as, cfg.PrimaryDNS = some p0 :: ps → cfg.AlternativeDNS = some a0 :: as →
        ∃ s, (InitServer w path socksAddr).outcome = .ret s) := by
  constructor
  · intro s hs
    rcases hP : cfg.PrimaryDNS with _ | ⟨_ | p0, ps⟩
    · obtain ⟨e, he⟩ := InitServer_primary_fails w path socksAddr cfg hcfg (Or.inl hP)
      rw [he] at hs; cases hs
    · obtain ⟨e, he⟩ := InitServer_primary_fails w path socksAddr cfg hcfg (Or.inr ⟨ps, hP⟩)
      rw [he] at hs; cases hs
    · rcases hA : cfg.AlternativeDNS with _ | ⟨_ | a0, as⟩
      · obtain ⟨e, he⟩ :=
          InitServer_alternative_fails w path socksAddr cfg p0 ps hcfg hP (Or.inl hA)
        rw [he] at hs; cases hs
      · obtain ⟨e, he⟩ :=
          InitServer_alternative_fails w path socksAddr cfg p0 ps hcfg hP (Or.inr ⟨as, hA⟩)
        rw [he] at hs; cases hs
      · rw [InitServer_ok w path socksAddr cfg p0 ps a0 as hcfg hP hA] at hs
        cases hs
        exact ⟨rfl, rfl, rfl, rfl, rfl, rfl, rfl, rfl, rfl⟩
  · intro p0 ps a0 as hP hA
    exact ⟨_, by rw [InitServer_ok w path socksAddr cfg p0 ps a0 as hcfg hP hA]⟩

/-- Witness of C10: a configuration file giving every setting. -/
theorem InitServer_passes_settings_witness :
    ∃ s, (InitServer (configWorld settingsJson settingsConfig) "config.json"
        "127.0.0.1:1080").outcome = .ret s ∧
      s.Dispatcher.OnlyPrimaryDNS = true ∧ s.Dispatcher.RedirectIPv6Record = true ∧
      s.BindAddress = ":53" ∧ s.MinimumTTL = 300 ∧ s.RejectQtype = [255] ∧
      s.Hosts = none ∧ s.Cache = some () :=
  have h := InitServer_passes_settings (configWorld settingsJson settingsConfig) "config.json"
    "127.0.0.1:1080" { settingsConfig with Cache := some () } (by decide)
  have hs : (InitServer (configWorld settingsJson settingsConfig) "config.json"
      "127.0.0.1:1080").outcome =
      .ret (serverOf { settingsConfig with Cache := some () } "127.0.0.1:1080"
        (upstream "8.8.8.8:53" "udp") [] (upstream "1.1.1.1:53" "tcp") []) := by decide
  ⟨_, hs, (h.1 _ hs).1, (h.1 _ hs).2.1, (h.1 _ hs).2.2.2.2.1, (h.1 _ hs).2.2.2.2.2.1,
    (h.1 _ hs).2.2.2.2.2.2.1, (h.1 _ hs).2.2.2.2.2.2.2.1, (h.1 _ hs).2.2.2.2.2.2.2.2⟩

end Startup

end Overture
